import Mathlib

/-!
Verification of the ah_openai speech-to-speech core: a shallow embedding of
`src/ah_openai/s2s/audio_pacer.py`, `handlers.py`, `connection.py` and
`utils.py`, together with theorems settling the specification claims.

Conventions of the embedding:
* Wall-clock instants (Python `time.perf_counter()`) are rationals; every
  operation that reads the clock takes the current instant as an argument.
* Python `bytes` values are lists of naturals; `len` is `List.length`.
* The application callbacks (`on_audio_chunk`, `on_command`, `on_transcript`,
  `on_interrupt`) are not interpreted: an invocation is recorded as a value
  (`Delivery` for the pacer's sink, `Call` for the dispatcher's callbacks).
* A Python exception that escapes a modelled block is an explicit error value
  (`Except`), or an `errored` flag where the source catches it.
-/

/-- Model of a parsed JSON value (the result of Python `json.loads`). -/
inductive Json where
  | null : Json
  | bool (b : Bool) : Json
  | num (n : Int) : Json
  | str (s : String) : Json
  | arr (elems : List Json) : Json
  | obj (fields : List (String × Json)) : Json

/-- Python `d[k]` on a parsed JSON value: a `KeyError` on a missing key of an
object, a `TypeError` when the value is not an object (indexing a list with a
string, a string, a number, ...). -/
def Json.getField : Json → String → Except String Json
  | .obj fields, k =>
    match fields.lookup k with
    | some v => .ok v
    | none => .error "KeyError"
  | _, _ => .error "TypeError"

/-- Python `json.loads(x)` demands a string argument; anything else raises a
`TypeError` before parsing starts. -/
def Json.asString : Json → Except String String
  | .str s => .ok s
  | _ => .error "TypeError"

/-- State of `AudioPacer` (audio_pacer.py, `__init__` lists the fields).
`on_audio_chunk` and `context` record only whether the callback / context is
set (`None` in Python is `false`); the sink invocations themselves are
returned by `pace_step` as `Delivery` values. -/
structure AudioPacer where
  buffer : List (List Nat)
  pacer_task : Bool
  on_audio_chunk : Bool
  context : Bool
  _running : Bool
  start_time : Option ℚ
  bytes_sent : Nat
  audio_start_time : Option ℚ
  playback_rate : ℚ
  deriving DecidableEq

namespace AudioPacer

/-- `AudioPacer.__init__` (audio_pacer.py lines 20-31). -/
def init : AudioPacer :=
  { buffer := []
    pacer_task := false
    on_audio_chunk := false
    context := false
    _running := false
    start_time := none
    bytes_sent := 0
    audio_start_time := none
    playback_rate := 1 }

/-- `AudioPacer.add_chunk` (lines 33-40): append only while running; record
`audio_start_time` when it `is None`. -/
def add_chunk (s : AudioPacer) (audio_bytes : List Nat) (now : ℚ) : AudioPacer :=
  if s._running then
    { s with
      buffer := s.buffer ++ [audio_bytes]
      audio_start_time :=
        match s.audio_start_time with
        | none => some now
        | some t => some t }
  else
    s

/-- `AudioPacer.clear` (lines 42-54): empty the queue, drop the turn start
instant, zero the byte counter and move the pacing reference clock to now. -/
def clear (s : AudioPacer) (now : ℚ) : AudioPacer :=
  { s with
    buffer := []
    audio_start_time := none
    bytes_sent := 0
    start_time := some now }

/-- `AudioPacer.start_pacing` (lines 56-71): install the sink and context,
raise the running flag, reset the reference clock and counter, spawn the
pacing task. -/
def start_pacing (s : AudioPacer) (now : ℚ) : AudioPacer :=
  { s with
    on_audio_chunk := true
    context := true
    _running := true
    start_time := some now
    bytes_sent := 0
    pacer_task := true }

/-- One delivery of a frame to the sink: the chunk handed to
`on_audio_chunk`, with the `timestamp` keyword argument when one was passed
(lines 86-94 branch on the truthiness of `audio_start_time`). -/
structure Delivery where
  chunk : List Nat
  timestamp : Option ℚ
  deriving DecidableEq

/-- One iteration of the body of `AudioPacer._pace_loop` (lines 79-114),
evaluated at clock instant `now`.  Returns the new state, the delivery made
(if any) and the sleep performed: `some d` when the loop sleeps `d` seconds,
`none` when it proceeds immediately (the catch-up branch, line 110).  The
error case is a Python `TypeError`: `on_audio_chunk` or `start_time` still
`None` when used (impossible after `start_pacing`). -/
def pace_step (s : AudioPacer) (now : ℚ) :
    Except Unit (AudioPacer × Option Delivery × Option ℚ) :=
  match s.buffer with
  | [] => .ok (s, none, some (5 / 1000))
  | chunk :: rest =>
    if s.on_audio_chunk = false then .error () else
    let ts : Option ℚ :=
      match s.audio_start_time with
      | some t => if t ≠ 0 then some (t + (s.bytes_sent : ℚ) / 8000) else none
      | none => none
    let bytes' := s.bytes_sent + chunk.length
    match s.start_time with
    | none => .error ()
    | some st =>
      let target := st + ((bytes' : ℚ) / 8000) * s.playback_rate
      let sleep_duration := target - now
      .ok ({ s with buffer := rest, bytes_sent := bytes' },
           some ⟨chunk, ts⟩,
           if 0 < sleep_duration then some sleep_duration else none)

/-- `AudioPacer.stop` (lines 116-125): lower the running flag, cancel the
task (the `CancelledError` is swallowed, lines 121-124) and drop all queued
frames.  No sink call is made. -/
def stop (s : AudioPacer) : AudioPacer :=
  { s with _running := false, buffer := [] }

end AudioPacer

/-- The `while self._running` loop of `_pace_loop`, driven by the list of
clock instants at which successive iterations run.  Collects the deliveries
made to the sink; an escaped exception (the `.error` case of `pace_step`)
kills the task. -/
def pace_loop (s : AudioPacer) (times : List ℚ) :
    AudioPacer × List AudioPacer.Delivery :=
  match times with
  | [] => (s, [])
  | now :: rest =>
    if s._running then
      match AudioPacer.pace_step s now with
      | .error _ => (s, [])
      | .ok (s', d, _) =>
        let r := pace_loop s' rest
        (r.1, (match d with | some x => [x] | none => []) ++ r.2)
    else
      (s, [])

/-- One content item of a message item, as read by `handle_transcript`
(handlers.py lines 107-119): the three dictionary keys the code accesses,
each `none` when the key is absent.  `ctype` stands for the `type` key. -/
structure ContentPart where
  ctype : Option String
  transcript : Option String
  text : Option String
  deriving DecidableEq

/-- The `item` payload of a `conversation.item.done` event, shaped as the
dispatcher reads it (handlers.py lines 173-178).  A message item's `role`
is `none` when the key is absent (a `KeyError` in the handler). -/
inductive SItem where
  | functionCall (name arguments : String) : SItem
  | messageItem (role : Option String) (content : List ContentPart) : SItem
  | otherItem : SItem
  deriving DecidableEq

/-- An inbound server event, shaped by its `type` discriminator exactly as
`handle_message` branches on it (handlers.py lines 130-180).  The audio
delta carries the already base64-decoded payload bytes (the decode is the
external collaborator `parseEvent`).  `transcriptionCompleted` carries the
top-level `transcript` key when present. -/
inductive ServerEvent where
  | audioDelta (bytes : List Nat) : ServerEvent
  | audioDone : ServerEvent
  | transcriptionCompleted (transcript : Option String) : ServerEvent
  | speechStarted : ServerEvent
  | speechStopped : ServerEvent
  | responseCreated : ServerEvent
  | audioStarted : ServerEvent
  | itemDone (item : SItem) : ServerEvent
  | otherEvent : ServerEvent

/-- An outbound message handed to `connection.send_message`: a role and a
list of content parts, each part a `(type, text)` pair. -/
structure OutMessage where
  role : String
  content : List (String × String)
  deriving DecidableEq

/-- The synthetic error message built by `handle_function_call`'s except
block (handlers.py line 91); the traceback text is abstracted away. -/
def error_msg (e : String) : OutMessage :=
  { role := "user"
    content := [("text", "[SYSTEM: Error executing command: " ++ e ++ "]")] }

/-- `connection.send_message` (connection.py lines 163-194): only `text`
content parts are supported (anything else raises), each becomes an
`input_text` part, and the created item's role is the literal `"user"`.
Returns the two wire events sent, `conversation.item.create` then
`response.create`; `eid` stands for the generated `event_id`. -/
def send_message_events (m : OutMessage) (eid : String) :
    Except String (List Json) := do
  let parts ← m.content.mapM (fun it =>
    if it.1 = "text" then
      Except.ok (Json.obj [("type", Json.str "input_text"), ("text", Json.str it.2)])
    else
      Except.error ("Unimplemented content type: " ++ it.1))
  Except.ok
    [Json.obj
      [("type", Json.str "conversation.item.create"),
       ("item", Json.obj
         [("type", Json.str "message"),
          ("role", Json.str "user"),
          ("content", Json.arr parts)]),
       ("event_id", Json.str eid)],
     Json.obj [("type", Json.str "response.create")]]

/-- A recorded invocation of an application callback, or a send of a
synthetic message back to the remote service. -/
inductive Call where
  | onCommand (cmd : Json) : Call
  | onTranscript (role text : String) : Call
  | onInterrupt : Call
  | sentToRemote (msg : OutMessage) : Call

/-- The command list produced by `handle_function_call` (handlers.py lines
68-84) before the callback invocations, as an exception-tracking
computation: `json.loads` is the external `parse`.  A non-"output" call
yields the singleton wrapper dict; the reserved "output" call parses its
arguments' `text` field and yields one command per list element, or the
single parsed value. -/
def fc_commands (parse : String → Except String Json)
    (name arguments : String) : Except String (List Json) := do
  let args0 ← parse arguments
  if name ≠ "output" then
    let args ← parse arguments
    pure [Json.obj [(name, args)]]
  else do
    let textJ ← Json.getField args0 "text"
    let textS ← Json.asString textJ
    let cmd ← parse textS
    match cmd with
    | .arr xs => pure xs
    | c => pure [c]

/-- `handle_function_call` (handlers.py lines 66-95): on success the command
callback is invoked once per command, in order; on any exception the error is
reported to the remote service as a synthetic user message (lines 88-93),
itself swallowed when the socket lookup or send fails (`socketOk`). -/
def handle_function_call (parse : String → Except String Json)
    (socketOk : Bool) (name arguments : String) : List Call :=
  match fc_commands parse name arguments with
  | .ok cmds => cmds.map Call.onCommand
  | .error e => if socketOk then [Call.sentToRemote (error_msg e)] else []

/-- The content scan of `handle_transcript` (handlers.py lines 106-119),
with the loop's break semantics: first assistant `output_audio` part with a
`transcript` key, or first user part with a `transcript` key, else a user
`input_text` part with a `text` key. -/
def transcript_scan (role : String) (content : List ContentPart) : Option String :=
  match content with
  | [] => none
  | ci :: rest =>
    if role = "assistant" ∧ ci.ctype = some "output_audio" then
      match ci.transcript with
      | some t => some t
      | none => transcript_scan role rest
    else if role = "user" then
      match ci.transcript with
      | some t => some t
      | none =>
        if ci.ctype = some "input_text" then
          match ci.text with
          | some t => some t
          | none => transcript_scan role rest
        else transcript_scan role rest
    else transcript_scan role rest

/-- `handle_transcript` (handlers.py lines 97-125).  `topTranscript` is the
event's top-level `transcript` key; `item` is the `(role, content)` of its
`item` key, with `none` components for absent keys (their `KeyError` is
caught by the handler's except block, which invokes nothing).  The final
guard is Python truthiness: an empty scanned transcript is not forwarded. -/
def handle_transcript (topTranscript : Option String)
    (item : Option (Option String × List ContentPart)) : List Call :=
  match topTranscript with
  | some t => [Call.onTranscript "user" t]
  | none =>
    match item with
    | none => []
    | some (none, _) => []
    | some (some role, content) =>
      match transcript_scan role content with
      | some t => if t ≠ "" then [Call.onTranscript role t] else []
      | none => []

/-- The per-session dispatcher bookkeeping of handlers.py, restricted to one
session: the pacer registered in `_audio_pacers`, the instant stored in
`_last_ai_audio_done_time`, and the `_first_audio_delta_logged` flag
(`none` when the session id is not in the dict). -/
structure DispatchState where
  pacer : Option AudioPacer
  lastAudioDone : Option ℚ
  firstAudioLogged : Option Bool
  deriving DecidableEq

/-- Result of one `handle_message` invocation: the updated session state,
the callback invocations made, the INTERRUPT/NORMAL classification logged on
a speech-started event, and whether the top-level except block caught an
exception. -/
structure HMResult where
  state : DispatchState
  calls : List Call
  turnType : Option String
  errored : Bool

/-- `handle_message` (handlers.py lines 127-183) for one event of one
session at clock instant `now`.  `sink` tells whether an `on_audio_chunk`
callback was supplied, `ctx` whether `context` is not `None`, `socketOk`
whether a socket is registered for the session.  The `audioDone` branch
calls `mark_response_done()` on the pacer (line 143), a method `AudioPacer`
does not define: that call raises `AttributeError`, caught by the top-level
except block, so the branch is modelled as `errored := true` with the pacer
left untouched. -/
def handle_message (parse : String → Except String Json) (socketOk : Bool)
    (sink : Bool) (ctx : Bool) (st : DispatchState) (ev : ServerEvent)
    (now : ℚ) : HMResult :=
  match ev with
  | .audioDelta bytes =>
    -- handle_audio_delta, lines 38-64 (play_local is false); its own
    -- except block keeps any failure out of handle_message.
    if sink ∧ ctx then
      let st1 :=
        match st.firstAudioLogged with
        | some true => st
        | _ => { st with firstAudioLogged := some true }
      match st1.pacer with
      | none =>
        let p := AudioPacer.start_pacing AudioPacer.init now
        ⟨{ st1 with pacer := some (AudioPacer.add_chunk p bytes now) }, [], none, false⟩
      | some p =>
        ⟨{ st1 with pacer := some (AudioPacer.add_chunk p bytes now) }, [], none, false⟩
    else ⟨st, [], none, false⟩
  | .audioDone =>
    if ctx then
      let st1 :=
        match st.firstAudioLogged with
        | some _ => { st with firstAudioLogged := some false }
        | none => st
      let st2 := { st1 with lastAudioDone := some now }
      match st2.pacer with
      | some _ => ⟨st2, [], none, true⟩
      | none => ⟨st2, [], none, false⟩
    else
      -- context is None: line 138 dereferences context.log_id and raises.
      ⟨st, [], none, true⟩
  | .transcriptionCompleted t => ⟨st, handle_transcript t none, none, false⟩
  | .speechStarted =>
    let pacer_has_audio : Bool :=
      ctx && (match st.pacer with
              | some p => !p.buffer.isEmpty
              | none => false)
    let turnType := if pacer_has_audio then "INTERRUPT" else "NORMAL"
    if ctx then
      match st.pacer with
      | some p =>
        ⟨{ st with pacer := some (AudioPacer.clear p now) },
         [Call.onInterrupt], some turnType, false⟩
      | none => ⟨st, [Call.onInterrupt], some turnType, false⟩
    else ⟨st, [Call.onInterrupt], some turnType, false⟩
  | .speechStopped => ⟨st, [], none, false⟩
  | .responseCreated => ⟨st, [], none, false⟩
  | .audioStarted => ⟨st, [], none, false⟩
  | .itemDone item =>
    match item with
    | .functionCall n a => ⟨st, handle_function_call parse socketOk n a, none, false⟩
    | .messageItem role content =>
      ⟨st, handle_transcript none (some (role, content)), none, false⟩
    | .otherItem => ⟨st, [], none, false⟩
  | .otherEvent => ⟨st, [], none, false⟩

/-- The `async for message in ws` loop of `message_handler_loop` (handlers.py
lines 185-192): events are handled strictly in order, each at its clock
instant, threading the session state; one result per event. -/
def message_loop (parse : String → Except String Json) (socketOk : Bool)
    (sink : Bool) (ctx : Bool) :
    DispatchState → List (ServerEvent × ℚ) → DispatchState × List HMResult
  | st, [] => (st, [])
  | st, (ev, now) :: rest =>
    let r := handle_message parse socketOk sink ctx st ev now
    let rec_ := message_loop parse socketOk sink ctx r.state rest
    (rec_.1, r :: rec_.2)

/-- The opening brace character, kept out of string literals. -/
def lbrace : Char := Char.ofNat 123

/-- The closing brace character, kept out of string literals. -/
def rbrace : Char := Char.ofNat 125

/-- Lower-case hexadecimal digit. -/
def hexDigit (n : Nat) : Char :=
  "0123456789abcdef".data.getD n '0'

/-- JSON string escaping of one character, as a general-purpose serializer
performs it: quote and backslash are escaped, control characters get their
short escapes or a u-escape, all other characters pass through. -/
def jsonEscapeChar (c : Char) : List Char :=
  if c = '"' then ['\\', '"']
  else if c = '\\' then ['\\', '\\']
  else if c = '\n' then ['\\', 'n']
  else if c = '\t' then ['\\', 't']
  else if c = '\r' then ['\\', 'r']
  else if c.toNat = 8 then ['\\', 'b']
  else if c.toNat = 12 then ['\\', 'f']
  else if c.toNat < 32 then
    ['\\', 'u', '0', '0', hexDigit (c.toNat / 16), hexDigit (c.toNat % 16)]
  else [c]

/-- JSON string escaping of a character list. -/
def jsonEscape (s : List Char) : List Char :=
  s.flatMap jsonEscapeChar

/-- Serialization of a JSON string: quoted, body escaped. -/
def serializeString (s : String) : List Char :=
  '"' :: jsonEscape s.data ++ ['"']

mutual

/-- Modelled from the spec: the general-purpose compact JSON serialization
(`serializeEvent`) that the precomputed envelope template of
`send_audio_chunk` replaces.  Spec-side definition for the refinement claim
about the outbound encoder. -/
def serializeJson : Json → List Char
  | .null => "null".data
  | .bool true => "true".data
  | .bool false => "false".data
  | .num n => (toString n).data
  | .str s => serializeString s
  | .arr xs => '[' :: serializeElems xs ++ [']']
  | .obj fs => lbrace :: serializeFields fs ++ [rbrace]

/-- Comma-separated serialization of array elements. -/
def serializeElems : List Json → List Char
  | [] => []
  | [x] => serializeJson x
  | x :: y :: rest => serializeJson x ++ ',' :: serializeElems (y :: rest)

/-- Comma-separated serialization of object fields. -/
def serializeFields : List (String × Json) → List Char
  | [] => []
  | [(k, v)] => serializeString k ++ ':' :: serializeJson v
  | (k, v) :: y :: rest =>
    serializeString k ++ ':' :: serializeJson v ++ ',' :: serializeFields (y :: rest)

end

/-- The base64 alphabet, in index order. -/
def b64Alphabet : List Char :=
  "ABCDEFGHIJKLMNOPQRSTUVWXYZabcdefghijklmnopqrstuvwxyz0123456789+/".data

/-- The base64 digit of a 6-bit group. -/
def b64Char (n : Nat) : Char :=
  b64Alphabet.getD n 'A'

/-- Standard base64 encoding with padding (Python `base64.b64encode`),
on bytes given as naturals below 256. -/
def b64Encode : List Nat → List Char
  | [] => []
  | [a] => [b64Char (a / 4), b64Char (a % 4 * 16), '=', '=']
  | [a, b] => [b64Char (a / 4), b64Char (a % 4 * 16 + b / 16), b64Char (b % 16 * 4), '=']
  | a :: b :: c :: rest =>
    b64Char (a / 4) :: b64Char (a % 4 * 16 + b / 16) ::
    b64Char (b % 16 * 4 + c / 64) :: b64Char (c % 64) :: b64Encode rest

/-- `utils.JSON_PREFIX` (utils.py line 13), as a character list. -/
def JSON_PREFIX : List Char :=
  lbrace :: "\"type\":\"input_audio_buffer.append\",\"audio\":\"".data

/-- `utils.JSON_SUFFIX` (utils.py line 14), as a character list. -/
def JSON_SUFFIX : List Char :=
  '"' :: [rbrace]

/-- The wire text produced by `connection.send_audio_chunk` (connection.py
lines 152-154): envelope prefix, base64 payload, envelope suffix. -/
def send_audio_chunk_json (audio_bytes : List Nat) : List Char :=
  JSON_PREFIX ++ b64Encode audio_bytes ++ JSON_SUFFIX

/-- Modelled from the spec: the `input_audio_buffer.append` event carrying
the base64 audio payload, as `send_audio_chunk` would build it for a
general-purpose serializer. -/
def audio_append_event (audio_bytes : List Nat) : Json :=
  Json.obj
    [("type", Json.str "input_audio_buffer.append"),
     ("audio", Json.str (String.mk (b64Encode audio_bytes)))]

/-- Modelled from the spec: the text payload and its role that a transcript
event carries, per the claim's words — the top-level transcript field is a
user transcript; otherwise the message item's first content part holding a
transcript (assistant audio output, or user transcript / typed input text),
an empty text counting as nothing extractable. -/
def extractable_text (role : String) (content : List ContentPart) : Option String :=
  content.findSome? (fun ci =>
    if role = "assistant" then
      if ci.ctype = some "output_audio" then ci.transcript else none
    else if role = "user" then
      match ci.transcript with
      | some t => some t
      | none => if ci.ctype = some "input_text" then ci.text else none
    else none)

/-- Modelled from the spec: role and text extracted from a transcript event,
or `none` when the event carries no extractable text. -/
def extracted_transcript (topTranscript : Option String)
    (item : Option (Option String × List ContentPart)) : Option (String × String) :=
  match topTranscript with
  | some t => some ("user", t)
  | none =>
    match item with
    | some (some role, content) =>
      match extractable_text role content with
      | some t => if t ≠ "" then some (role, t) else none
      | none => none
    | _ => none

/-- A parse function that fails on every input (used for concrete events
whose handling never parses, and for malformed-argument scenarios). -/
def parse0 : String → Except String Json := fun _ => Except.error "boom"

/-- A concrete parse map exercising the three function-call scenarios:
a generic named call, a bundled "output" array, a bundled single object. -/
def parseW : String → Except String Json := fun s =>
  if s = "a1" then Except.ok (Json.num 1)
  else if s = "a2" then Except.ok (Json.obj [("text", Json.str "t2")])
  else if s = "t2" then Except.ok (Json.arr [Json.num 2, Json.num 3])
  else if s = "a3" then Except.ok (Json.obj [("text", Json.str "t3")])
  else if s = "t3" then Except.ok (Json.obj [("k", Json.num 4)])
  else Except.error "parse"

/-- A concrete pacer state mid-call: pacing started at instant 10 (the
reference clock), first frame of the current turn buffered at instant 1,
one 4-byte frame queued, nothing sent yet. -/
def c1State : AudioPacer :=
  { buffer := [[0, 0, 0, 0]]
    pacer_task := true
    on_audio_chunk := true
    context := true
    _running := true
    start_time := some 10
    bytes_sent := 0
    audio_start_time := some 1
    playback_rate := 1 }

/-- A concrete running pacer used to instantiate the amended pacing-cycle
theorem: reference clock and turn start both at instant 3, one 2-byte frame
queued. -/
def pcwState : AudioPacer :=
  { buffer := [[7, 7]]
    pacer_task := true
    on_audio_chunk := true
    context := true
    _running := true
    start_time := some 3
    bytes_sent := 0
    audio_start_time := some 3
    playback_rate := 1 }

/-- A concrete pacer with a drained queue and a recorded turn start at
instant 2, as it stands when synthesis of a turn finishes. -/
def c4Pacer : AudioPacer :=
  { buffer := []
    pacer_task := true
    on_audio_chunk := true
    context := true
    _running := true
    start_time := some 1
    bytes_sent := 3
    audio_start_time := some 2
    playback_rate := 1 }

/-- The dispatcher state holding `c4Pacer` for the session. -/
def c4State : DispatchState :=
  { pacer := some c4Pacer, lastAudioDone := none, firstAudioLogged := some true }
/-- A dispatcher state holding the mid-call pacer `c1State`, whose queue is
non-empty. -/
def c2State : DispatchState :=
  { pacer := some c1State, lastAudioDone := none, firstAudioLogged := some true }


/-! Helper lemmas shared by the claim theorems. -/

/-- A pacer whose queue is empty delivers nothing, whatever the schedule:
the empty branch of `pace_step` only sleeps and leaves the state intact. -/
theorem pace_loop_empty (s : AudioPacer) (hs : s.buffer = []) :
    ∀ times, pace_loop s times = (s, []) := by
  intro times
  induction times with
  | nil => rfl
  | cons now rest ih =>
    simp only [pace_loop, AudioPacer.pace_step, hs]
    by_cases hr : s._running = true
    · simp [hr, ih]
    · simp [hr]

/-- A stopped pacer never iterates: the loop guard fails at once. -/
theorem pace_loop_not_running (s : AudioPacer) (hs : s._running = false) :
    ∀ times, pace_loop s times = (s, []) := by
  intro times
  cases times with
  | nil => rfl
  | cons now rest => simp [pace_loop, hs]

/-- The dispatcher loop yields one result per inbound event: per-event
failures are caught inside `handle_message`, never aborting the iteration. -/
theorem message_loop_length (parse : String → Except String Json)
    (socketOk sink ctx : Bool) :
    ∀ events st, ((message_loop parse socketOk sink ctx st events).2).length
      = events.length := by
  intro events
  induction events with
  | nil => intro st; rfl
  | cons e rest ih =>
    intro st
    cases e with
    | mk ev now => simp [message_loop, ih]

/-! Claim theorems. -/

/-- C7: clear() empties the queue, resets bytes_sent to 0 and advances the
pacing reference clock to now, while leaving the running flag, sink
callback, context and pacing task unchanged (the loop is not stopped); a
frame enqueued immediately after clear() is delivered with a target release
timestamp equal to its enqueue instant, independent of the elapsed time of
the previous turn. -/
theorem clear_resets_pacing (p : AudioPacer) (f : List Nat) (now t t' : ℚ)
    (hrun : p._running = true) (hsink : p.on_audio_chunk = true) (ht : t ≠ 0) :
    (AudioPacer.clear p now).buffer = [] ∧
    (AudioPacer.clear p now).bytes_sent = 0 ∧
    (AudioPacer.clear p now).start_time = some now ∧
    (AudioPacer.clear p now).audio_start_time = none ∧
    (AudioPacer.clear p now)._running = p._running ∧
    (AudioPacer.clear p now).on_audio_chunk = p.on_audio_chunk ∧
    (AudioPacer.clear p now).context = p.context ∧
    (AudioPacer.clear p now).pacer_task = p.pacer_task ∧
    AudioPacer.pace_step (AudioPacer.add_chunk (AudioPacer.clear p now) f t) t' =
      .ok ({ p with
             buffer := ([])
             audio_start_time := some t
             bytes_sent := f.length
             start_time := some now },
           some ⟨f, some t⟩,
           if 0 < now + ((f.length : ℚ) / 8000) * p.playback_rate - t'
           then some (now + ((f.length : ℚ) / 8000) * p.playback_rate - t')
           else none) := by
  refine ⟨rfl, rfl, rfl, rfl, rfl, rfl, rfl, rfl, ?_⟩
  simp [AudioPacer.clear, AudioPacer.add_chunk, AudioPacer.pace_step, hrun, hsink, ht]

/-- Witness for C7 at a concrete pacer and concrete instants. -/
theorem clear_resets_pacing_witness :
    (AudioPacer.clear pcwState 6).buffer = [] ∧
    (AudioPacer.clear pcwState 6).bytes_sent = 0 ∧
    (AudioPacer.clear pcwState 6).start_time = some 6 ∧
    (AudioPacer.clear pcwState 6).audio_start_time = none ∧
    (AudioPacer.clear pcwState 6)._running = pcwState._running ∧
    (AudioPacer.clear pcwState 6).on_audio_chunk = pcwState.on_audio_chunk ∧
    (AudioPacer.clear pcwState 6).context = pcwState.context ∧
    (AudioPacer.clear pcwState 6).pacer_task = pcwState.pacer_task ∧
    AudioPacer.pace_step (AudioPacer.add_chunk (AudioPacer.clear pcwState 6) [1, 2] 7) 7 =
      .ok ({ pcwState with
             buffer := ([])
             audio_start_time := some 7
             bytes_sent := 2
             start_time := some 6 },
           some ⟨[1, 2], some 7⟩,
           if 0 < 6 + (((2 : Nat) : ℚ) / 8000) * pcwState.playback_rate - 7
           then some (6 + (((2 : Nat) : ℚ) / 8000) * pcwState.playback_rate - 7)
           else none) := by
  simpa using clear_resets_pacing pcwState [1, 2] 6 7 7 rfl rfl (by norm_num)

/-- C8: stop() terminates the pacing loop and discards all queued frames
without delivering them; a second stop() is a no-op producing no error, and
a stopped loop makes no further sink invocation on any schedule. -/
theorem stop_idempotent (s : AudioPacer) (times : List ℚ) :
    AudioPacer.stop (AudioPacer.stop s) = AudioPacer.stop s ∧
    (AudioPacer.stop s).buffer = [] ∧
    (AudioPacer.stop s)._running = false ∧
    pace_loop (AudioPacer.stop s) times = (AudioPacer.stop s, []) := by
  exact ⟨rfl, rfl, rfl, pace_loop_not_running _ rfl times⟩

/-- C2: a speech-started event arriving while the session's pacer queue is
non-empty is classified INTERRUPT; the dispatcher clears the pacer (emptying
the queue, so no previously buffered frame is delivered afterwards: the
cleared pacer's loop delivers nothing), does not stop the pacing loop, and
invokes the interruption callback. -/
theorem speech_started_interrupt (parse : String → Except String Json)
    (socketOk sink : Bool) (st : DispatchState) (p : AudioPacer) (now : ℚ)
    (hp : st.pacer = some p) (hne : p.buffer ≠ []) :
    (handle_message parse socketOk sink true st .speechStarted now).turnType
        = some "INTERRUPT" ∧
    (handle_message parse socketOk sink true st .speechStarted now).state.pacer
        = some (AudioPacer.clear p now) ∧
    (AudioPacer.clear p now).buffer = [] ∧
    (AudioPacer.clear p now)._running = p._running ∧
    (AudioPacer.clear p now).pacer_task = p.pacer_task ∧
    (handle_message parse socketOk sink true st .speechStarted now).calls
        = [Call.onInterrupt] ∧
    (∀ times, pace_loop (AudioPacer.clear p now) times
        = (AudioPacer.clear p now, [])) := by
  refine ⟨?_, ?_, rfl, rfl, rfl, ?_, fun times => pace_loop_empty _ rfl times⟩
  · simp [handle_message, hp, hne]
  · simp [handle_message, hp]
  · simp [handle_message, hp]

/-- C3: on every speech-started event for a session with a pacer, the
dispatcher clears the pacer's buffer and resets its timing, and invokes the
interruption callback exactly once, regardless of the INTERRUPT/NORMAL
classification — in particular even when the queue is empty, where the
classification is NORMAL. -/
theorem speech_started_always_clears (parse : String → Except String Json)
    (socketOk sink : Bool) (st : DispatchState) (p : AudioPacer) (now : ℚ)
    (hp : st.pacer = some p) :
    (handle_message parse socketOk sink true st .speechStarted now).state.pacer
        = some (AudioPacer.clear p now) ∧
    (AudioPacer.clear p now).buffer = [] ∧
    (AudioPacer.clear p now).bytes_sent = 0 ∧
    (AudioPacer.clear p now).audio_start_time = none ∧
    (AudioPacer.clear p now).start_time = some now ∧
    (handle_message parse socketOk sink true st .speechStarted now).calls
        = [Call.onInterrupt] ∧
    (p.buffer = [] →
      (handle_message parse socketOk sink true st .speechStarted now).turnType
        = some "NORMAL") := by
  refine ⟨?_, rfl, rfl, rfl, rfl, ?_, ?_⟩
  · simp [handle_message, hp]
  · simp [handle_message, hp]
  · intro hb; simp [handle_message, hp, hb]

/-- C1 counterexample: at the concrete state `c1State` (reference clock
started at instant 10, current turn's first frame buffered at instant 1,
nothing sent yet) and current time 5, the pacing cycle sleeps a positive
duration although the turnStartTime-based target of the next cycle,
turnStartTime + bytesSent/8000 = 1 + 4/8000, has already elapsed: the
sleep target in the code is computed from start_time, not from the turn
start instant. -/
theorem pace_cycle_counterexample :
    AudioPacer.pace_step c1State 5 =
      .ok ({ c1State with buffer := ([]), bytes_sent := 4 },
           some ⟨[0, 0, 0, 0], some (1 + (0 : ℚ) / 8000)⟩,
           some (10 + (4 : ℚ) / 8000 - 5)) ∧
    (0 : ℚ) < 10 + (4 : ℚ) / 8000 - 5 ∧
    c1State.audio_start_time = some 1 ∧
    1 + ((c1State.bytes_sent + 4 : ℕ) : ℚ) / 8000 < 5 := by
  refine ⟨?_, by norm_num, rfl, by norm_num [c1State]⟩
  simp [AudioPacer.pace_step, c1State]
  norm_num

/-- C1 amended: in a cycle with a non-empty queue the pacer dequeues the
head frame, delivers it to the sink stamped with the turn-start-based
instant audio_start_time + bytesSent/8000, adds its length to bytesSent,
and computes the target release instant of the next cycle from the pacing
reference clock as start_time + bytesSent/8000 (byteRate 8000 bytes/sec at
the initial playback_rate 1) — not from the turn start instant; it sleeps
exactly when that start_time-based target lies in the future, by the
remaining positive duration, and never sleeps when that target has
elapsed. -/
theorem pace_cycle_amended (s : AudioPacer) (chunk : List Nat)
    (rest : List (List Nat)) (now st0 t0 : ℚ)
    (hb : s.buffer = chunk :: rest) (hst : s.start_time = some st0)
    (hat : s.audio_start_time = some t0) (ht0 : t0 ≠ 0)
    (hsink : s.on_audio_chunk = true) (hrate : s.playback_rate = 1) :
    AudioPacer.pace_step s now =
      .ok ({ s with buffer := rest, bytes_sent := s.bytes_sent + chunk.length },
           some ⟨chunk, some (t0 + (s.bytes_sent : ℚ) / 8000)⟩,
           if 0 < st0 + ((s.bytes_sent + chunk.length : ℕ) : ℚ) / 8000 - now
           then some (st0 + ((s.bytes_sent + chunk.length : ℕ) : ℚ) / 8000 - now)
           else none) := by
  simp [AudioPacer.pace_step, hb, hst, hat, ht0, hsink, hrate]

/-- Witness for the amended C1 at the concrete state `pcwState` and current
time 2: the queued 2-byte frame is delivered stamped 3, bytesSent becomes 2,
and the loop sleeps until the reference-clock target 3 + 2/8000. -/
theorem pace_cycle_amended_witness :
    AudioPacer.pace_step pcwState 2 =
      .ok ({ pcwState with buffer := ([]), bytes_sent := 2 },
           some ⟨[7, 7], some 3⟩, some (1 + (2 : ℚ) / 8000)) := by
  have h := pace_cycle_amended pcwState [7, 7] [] 2 3 3 rfl rfl rfl
    (by norm_num) rfl rfl
  rw [h]
  norm_num [pcwState]

/-- C4: the claim is half right on the code: handling a turn-completion
(audio-done) event does not stop the pacing loop, but it also does not mark
the pacer for a fresh turn start — line 143 of handlers.py calls
`mark_response_done()`, a method `AudioPacer` never defines, so the branch
raises `AttributeError` (caught by the top-level except block) and the
pacer keeps the stale turn start: enqueuing the next frame at instant 7
keeps audio_start_time = 2 instead of recording 7. -/
theorem audio_done_missing_method :
    (handle_message parse0 true true true c4State .audioDone 5).errored = true ∧
    (handle_message parse0 true true true c4State .audioDone 5).state.pacer
        = some c4Pacer ∧
    c4Pacer._running = true ∧
    (AudioPacer.add_chunk c4Pacer [9] 7).audio_start_time = some 2 ∧
    (AudioPacer.add_chunk c4Pacer [9] 7).audio_start_time ≠ some 7 := by
  refine ⟨rfl, rfl, rfl, rfl, ?_⟩
  simp [AudioPacer.add_chunk, c4Pacer]

/-- C5: a function_call item with name different from "output" invokes the
command callback exactly once with the function name and its parsed JSON
arguments; the reserved "output" call whose arguments' text field parses to
a JSON array of commands invokes the callback once per command in array
order, and exactly once when it parses to a single object. -/
theorem function_call_dispatch (parse1 parse2 parse3 : String → Except String Json)
    (so : Bool) (n a1 a2 a3 t2 t3 : String) (args : Json)
    (f2 f3 : List (String × Json)) (cmds : List Json) (o3 : List (String × Json))
    (h1n : n ≠ "output") (h1 : parse1 a1 = .ok args)
    (h2 : parse2 a2 = .ok (Json.obj f2))
    (h2t : f2.lookup "text" = some (Json.str t2))
    (h2c : parse2 t2 = .ok (Json.arr cmds))
    (h3 : parse3 a3 = .ok (Json.obj f3))
    (h3t : f3.lookup "text" = some (Json.str t3))
    (h3c : parse3 t3 = .ok (Json.obj o3)) :
    handle_function_call parse1 so n a1 = [Call.onCommand (Json.obj [(n, args)])] ∧
    handle_function_call parse2 so "output" a2 = cmds.map Call.onCommand ∧
    handle_function_call parse3 so "output" a3 = [Call.onCommand (Json.obj o3)] := by
  refine ⟨?_, ?_, ?_⟩
  · simp [handle_function_call, fc_commands, h1, h1n, Bind.bind, Except.bind,
      Pure.pure, Except.pure]
  · simp [handle_function_call, fc_commands, h2, h2t, h2c,
      Json.getField, Json.asString, Bind.bind, Except.bind, Pure.pure, Except.pure]
  · simp [handle_function_call, fc_commands, h3, h3t, h3c,
      Json.getField, Json.asString, Bind.bind, Except.bind, Pure.pure, Except.pure]

/-- Witness for C5 with the concrete parse map `parseW`: a generic call, a
bundled array of two commands, a bundled single object. -/
theorem function_call_dispatch_witness :
    handle_function_call parseW true "go" "a1"
        = [Call.onCommand (Json.obj [("go", Json.num 1)])] ∧
    handle_function_call parseW true "output" "a2"
        = [Call.onCommand (Json.num 2), Call.onCommand (Json.num 3)] ∧
    handle_function_call parseW true "output" "a3"
        = [Call.onCommand (Json.obj [("k", Json.num 4)])] := by
  have h := function_call_dispatch parseW parseW parseW true "go" "a1" "a2" "a3"
      "t2" "t3" (Json.num 1) [("text", Json.str "t2")] [("text", Json.str "t3")]
      [Json.num 2, Json.num 3] [("k", Json.num 4)]
      (by decide) rfl rfl rfl rfl rfl rfl rfl
  simpa using h

/-- C6: a failure handling a single event is isolated to that event — with
malformed function-call arguments the handler reports the failure back to
the remote service as a synthetic user-role message describing the error
(and only that), does not flag an escaped exception, leaves the session
state intact, and the event loop goes on to process every subsequent
event. -/
theorem per_event_error_isolation (parse : String → Except String Json)
    (sink ctx : Bool) (st : DispatchState) (n a e eid : String) (now : ℚ)
    (rest : List (ServerEvent × ℚ))
    (hp : parse a = .error e) :
    (handle_message parse true sink ctx st (.itemDone (.functionCall n a)) now).calls
        = [Call.sentToRemote (error_msg e)] ∧
    (handle_message parse true sink ctx st (.itemDone (.functionCall n a)) now).errored
        = false ∧
    (handle_message parse true sink ctx st (.itemDone (.functionCall n a)) now).state
        = st ∧
    (error_msg e).role = "user" ∧
    send_message_events (error_msg e) eid =
      .ok [Json.obj
            [("type", Json.str "conversation.item.create"),
             ("item", Json.obj
               [("type", Json.str "message"),
                ("role", Json.str "user"),
                ("content", Json.arr
                  [Json.obj [("type", Json.str "input_text"),
                             ("text", Json.str ("[SYSTEM: Error executing command: "
                                ++ e ++ "]"))]])]),
             ("event_id", Json.str eid)],
           Json.obj [("type", Json.str "response.create")]] ∧
    ((message_loop parse true sink ctx st
        ((.itemDone (.functionCall n a), now) :: rest)).2).length
        = rest.length + 1 := by
  refine ⟨?_, rfl, rfl, rfl, ?_, ?_⟩
  · simp [handle_message, handle_function_call, fc_commands, hp,
      Bind.bind, Except.bind]
  · simp [send_message_events, error_msg, List.mapM, List.mapM.loop,
      Bind.bind, Except.bind, Pure.pure, Except.pure]
  · simp [message_loop_length]

/-- Witness for C6: a concrete malformed function call followed by a
further event, both processed. -/
theorem per_event_error_isolation_witness :
    (handle_message parse0 true true true c4State
        (.itemDone (.functionCall "go" "bad")) 1).calls
        = [Call.sentToRemote (error_msg "boom")] ∧
    (handle_message parse0 true true true c4State
        (.itemDone (.functionCall "go" "bad")) 1).errored = false ∧
    ((message_loop parse0 true true true c4State
        [(.itemDone (.functionCall "go" "bad"), 1), (.speechStopped, 2)]).2).length
        = 2 := by
  have h := per_event_error_isolation parse0 true true c4State "go" "bad" "boom"
      "eid" 1 [(.speechStopped, 2)] rfl
  exact ⟨h.1, h.2.1, h.2.2.2.2.2⟩

/-- The dispatcher's content scan computes exactly the spec-side extractable
text of a message item. -/
theorem transcript_scan_eq_extractable (role : String) :
    ∀ content, transcript_scan role content = extractable_text role content := by
  intro content
  induction content with
  | nil => rfl
  | cons ci rest ih =>
    rw [transcript_scan, extractable_text, List.findSome?_cons]
    rw [extractable_text] at ih
    by_cases hra : role = "assistant"
    · subst hra
      by_cases hct : ci.ctype = some "output_audio"
      · cases h : ci.transcript <;> simp [hct, h, ih]
      · simp [hct, ih]
    · by_cases hru : role = "user"
      · subst hru
        cases h : ci.transcript with
        | some t => simp [hra, h]
        | none =>
          by_cases hit : ci.ctype = some "input_text"
          · cases ht : ci.text <;> simp [hra, h, hit, ht, ih]
          · simp [hra, h, hit, ih]
      · simp [hra, hru, ih]

/-- C10: for every transcript event the handler invokes the transcript
callback exactly once with the extracted role and text, and an event from
which no text is extractable is silently ignored — no callback invocation,
and the handler returns normally in every case (internal key errors are
caught). -/
theorem transcript_handling (topTranscript : Option String)
    (item : Option (Option String × List ContentPart)) :
    handle_transcript topTranscript item =
      (match extracted_transcript topTranscript item with
       | some (r, t) => [Call.onTranscript r t]
       | none => []) := by
  cases topTranscript with
  | some t => rfl
  | none =>
    cases item with
    | none => rfl
    | some pr =>
      obtain ⟨ro, content⟩ := pr
      cases ro with
      | none => rfl
      | some role =>
        simp only [handle_transcript, extracted_transcript,
          transcript_scan_eq_extractable]
        cases h : extractable_text role content with
        | none => simp [h]
        | some t => by_cases ht : t = "" <;> simp [h, ht]

/-- A base64 digit is drawn from the alphabet (any out-of-range index yields
the fallback digit, itself in the alphabet). -/
theorem b64Char_mem (n : Nat) : b64Char n ∈ b64Alphabet := by
  unfold b64Char
  rw [List.getD_eq_getElem?_getD]
  by_cases hn : n < b64Alphabet.length
  · rw [List.getElem?_eq_getElem hn]
    simp only [Option.getD_some]
    exact List.getElem_mem hn
  · rw [List.getElem?_eq_none (le_of_not_lt hn)]
    simp only [Option.getD_none]
    decide

/-- No character of the base64 alphabet is altered by JSON escaping. -/
theorem alphabet_escape : ∀ c ∈ b64Alphabet, jsonEscapeChar c = [c] := by decide

/-- JSON escaping fixes every base64 digit. -/
theorem b64Char_escape (n : Nat) : jsonEscapeChar (b64Char n) = [b64Char n] :=
  alphabet_escape _ (b64Char_mem n)

/-- JSON escaping fixes every character the base64 encoder emits. -/
theorem b64_escape_id : ∀ (bytes : List Nat), ∀ c ∈ b64Encode bytes,
    jsonEscapeChar c = [c]
  | [] => by simp [b64Encode]
  | [a] => by
    intro c hc
    simp only [b64Encode, List.mem_cons, List.not_mem_nil, or_false] at hc
    rcases hc with h | h | h | h <;> subst h
    · exact b64Char_escape _
    · exact b64Char_escape _
    · decide
    · decide
  | [a, b] => by
    intro c hc
    simp only [b64Encode, List.mem_cons, List.not_mem_nil, or_false] at hc
    rcases hc with h | h | h | h <;> subst h
    · exact b64Char_escape _
    · exact b64Char_escape _
    · exact b64Char_escape _
    · decide
  | a :: b :: c0 :: rest => by
    intro c hc
    simp only [b64Encode, List.mem_cons] at hc
    rcases hc with h | h | h | h | h
    · subst h; exact b64Char_escape _
    · subst h; exact b64Char_escape _
    · subst h; exact b64Char_escape _
    · subst h; exact b64Char_escape _
    · exact b64_escape_id rest c h

/-- A character list fixed pointwise by the escaper is fixed by escaping. -/
theorem escape_id_of_forall : ∀ (l : List Char),
    (∀ c ∈ l, jsonEscapeChar c = [c]) → jsonEscape l = l := by
  intro l
  induction l with
  | nil => intro _; rfl
  | cons c cs ih =>
    intro h
    simp only [jsonEscape, List.flatMap_cons]
    rw [h c (List.mem_cons_self c cs)]
    have hcs := ih (fun x hx => h x (List.mem_cons_of_mem c hx))
    simp only [jsonEscape] at hcs
    rw [hcs]
    rfl

/-- JSON escaping leaves a base64 payload verbatim. -/
theorem jsonEscape_b64 (bytes : List Nat) :
    jsonEscape (b64Encode bytes) = b64Encode bytes :=
  escape_id_of_forall _ (b64_escape_id bytes)

/-- C9: for every audio byte string, the precomputed-envelope wire message
(prefix, base64 payload, suffix) is character-for-character the
general-purpose JSON serialization of the input_audio_buffer.append event
carrying that base64 payload — valid because base64 output never needs JSON
escaping. -/
theorem send_audio_chunk_refines (audio_bytes : List Nat) :
    send_audio_chunk_json audio_bytes
      = serializeJson (audio_append_event audio_bytes) := by
  simp only [send_audio_chunk_json, audio_append_event, serializeJson,
    serializeFields, serializeString, JSON_PREFIX, JSON_SUFFIX]
  rw [jsonEscape_b64]
  have h1 : jsonEscape ['t', 'y', 'p', 'e'] = ['t', 'y', 'p', 'e'] := by decide
  have h2 : jsonEscape
      ['i', 'n', 'p', 'u', 't', '_', 'a', 'u', 'd', 'i', 'o', '_', 'b', 'u',
       'f', 'f', 'e', 'r', '.', 'a', 'p', 'p', 'e', 'n', 'd']
      = ['i', 'n', 'p', 'u', 't', '_', 'a', 'u', 'd', 'i', 'o', '_', 'b', 'u',
         'f', 'f', 'e', 'r', '.', 'a', 'p', 'p', 'e', 'n', 'd'] := by decide
  have h3 : jsonEscape ['a', 'u', 'd', 'i', 'o'] = ['a', 'u', 'd', 'i', 'o'] := by
    decide
  rw [h1, h2, h3]
  simp only [List.append_assoc, List.cons_append, List.nil_append,
    List.singleton_append]


/-- Witness for C2 at the concrete state `c2State` (queue non-empty) and
instant 4, with the cleared pacer run over a concrete two-step schedule. -/
theorem speech_started_interrupt_witness :
    (handle_message parse0 true true true c2State .speechStarted 4).turnType
        = some "INTERRUPT" ∧
    (handle_message parse0 true true true c2State .speechStarted 4).state.pacer
        = some (AudioPacer.clear c1State 4) ∧
    (handle_message parse0 true true true c2State .speechStarted 4).calls
        = [Call.onInterrupt] ∧
    pace_loop (AudioPacer.clear c1State 4) [5, 6]
        = (AudioPacer.clear c1State 4, []) := by
  have h := speech_started_interrupt parse0 true true c2State c1State 4 rfl
      (by decide)
  exact ⟨h.1, h.2.1, h.2.2.2.2.2.1, h.2.2.2.2.2.2 [5, 6]⟩

/-- Witness for C3 at the concrete state `c4State`, whose pacer queue is
empty: the classification is NORMAL, yet the pacer is cleared and the
interrupt callback fires once. -/
theorem speech_started_always_clears_witness :
    (handle_message parse0 true true true c4State .speechStarted 9).state.pacer
        = some (AudioPacer.clear c4Pacer 9) ∧
    (handle_message parse0 true true true c4State .speechStarted 9).calls
        = [Call.onInterrupt] ∧
    (handle_message parse0 true true true c4State .speechStarted 9).turnType
        = some "NORMAL" := by
  have h := speech_started_always_clears parse0 true true c4State c4Pacer 9 rfl
  exact ⟨h.1, h.2.2.2.2.2.1, h.2.2.2.2.2.2 rfl⟩
